import Mathlib

/-!
Verification of the matchs.tv scraper (src/matchs_tv.py): a shallow
embedding of the extraction, date-normalization, filtering and
notification logic, with theorems about the behaviours the specification
describes.

Conventions of the embedding:
- HTML pages are modelled by the results of the xpath queries the code
  performs: a `Row` holds, for one `tr` element, the (already
  text-extracted and stripped, as by `elem_content`) results of the four
  queries `parse_details` runs against it; a `Table` is its list of rows.
- Python exceptions become `Except ScrapError`; the two distinguishable
  exception sources of `parse_details` (the explicit "Unexpected number
  of tables" raise, and the `IndexError` from indexing `[0]` into an
  empty xpath result) become the two `ScrapError` constructors.
- `datetime` values used by the filter are integers (seconds); the
  `timedelta` comparison of `is_in_more_than_one_week` is exact integer
  arithmetic, as Python's is.
- Python's `list.sort`, documented stable, is modelled by
  `List.insertionSort` with the reflexive key order, which places an
  earlier element before later elements of equal key, exactly the
  stable-sort semantics.
-/

namespace MatchsTv

/-- One `tr` element of the schedule table, represented by the stripped
text contents that the four xpath queries of `parse_details` would
return for it: `cells` are the texts of its child elements (the code
reads `date[0]`), `date_tds` the texts of `.//td[@class='date']`,
`fixture_h4s` the texts of `.//td[@class='fixture']/h4`, and
`competitions_divs` the texts of `.//div[@class='competitions']`. -/
structure Row where
  cells : List String
  date_tds : List String
  fixture_h4s : List String
  competitions_divs : List String
deriving DecidableEq, Repr

/-- One schedule `table` element: its list of `tr` rows, in document
order (the code's `table.xpath(".//tr")`). -/
structure Table where
  rows : List Row
deriving DecidableEq, Repr

/-- The distinguishable exceptions of `parse_details`: the explicit
`raise Exception(f"Unexpected number of tables ...")`, and the lxml
`IndexError` raised by `[0]` on an empty xpath result list. -/
inductive ScrapError where
  | formatMismatch (n : Nat)
  | missingElem (what : String)
deriving DecidableEq, Repr

/-- The match dictionary built by `parse_details`: date, hour, teams and
competition strings plus the derived `id`. -/
structure MatchRecord where
  date : String
  hour : String
  teams : String
  competition : String
  id : String
deriving DecidableEq, Repr

/-- Builds the match dictionary from the four extracted texts, deriving
`id` exactly as the f-string
`f"{match['date']} {datetime.date.today().year} — {match['hour']} — {match['teams']}"`
does: date, a space, the current year, then em-dash-separated hour and
teams. -/
def mkMatch (year : Nat) (date hour teams competition : String) : MatchRecord :=
  { date := date, hour := hour, teams := teams, competition := competition,
    id := date ++ " " ++ toString year ++ " — " ++ hour ++ " — " ++ teams }

/-- Indexing `[0]` into an xpath result list: the head when the list is
nonempty, an `IndexError`-style failure otherwise. -/
def first? (what : String) : List String → Except ScrapError String
  | [] => .error (.missingElem what)
  | x :: _ => .ok x

/-- The body of the pairing loop of `parse_details`: given the date row
and the details row of one pair, extract the four texts (each via a
fallible `[0]` index) and build the match dictionary. -/
def extractPair (year : Nat) (dateRow detailsRow : Row) : Except ScrapError MatchRecord := do
  let date ← first? "date row first cell" dateRow.cells
  let hour ← first? "td.date" detailsRow.date_tds
  let teams ← first? "td.fixture h4" detailsRow.fixture_h4s
  let competition ← first? "div.competitions" detailsRow.competitions_divs
  .ok (mkMatch year date hour teams competition)

/-- The `while True` loop of `parse_details`: take rows two by two; when
`next` raises `StopIteration` (no rows left, or a single unpaired row
whose partner `next` fails) the loop breaks, returning what was
accumulated; otherwise extract the pair and continue. -/
def parse_rows (year : Nat) : List Row → Except ScrapError (List MatchRecord)
  | [] => .ok []
  | [_] => .ok []
  | d :: det :: rest => do
      let m ← extractPair year d det
      let ms ← parse_rows year rest
      .ok (m :: ms)

/-- The table-selection and row-parsing logic of `parse_details`, given
the result of `//div[@class='container']//table`: zero tables yields an
empty list, one table is used directly, of two tables the second is
used, and any other count raises the "Unexpected number of tables"
exception. -/
def parse_details (year : Nat) (page_tables : List Table) : Except ScrapError (List MatchRecord) :=
  match page_tables with
  | [] => .ok []
  | [t] => parse_rows year t.rows
  | [_, t2] => parse_rows year t2.rows
  | ts => .error (.formatMismatch ts.length)

/-- Interleaves a list of (date row, details row) pairs into the flat
row list in which the page presents them. -/
def pairsFlatten : List (Row × Row) → List Row
  | [] => []
  | (a, b) :: ps => a :: b :: pairsFlatten ps

/-- The record a well-formed (date row, details row) pair yields: the
head of each of the four query results. -/
def pairMatch (year : Nat) (p : Row × Row) : MatchRecord :=
  mkMatch year (p.1.cells.headD "") (p.2.date_tds.headD "")
    (p.2.fixture_h4s.headD "") (p.2.competitions_divs.headD "")

/-- A calendar date, the output granularity of the date normalizer. -/
structure Date where
  year : Nat
  month : Nat
  day : Nat
deriving DecidableEq, Repr

/-- Lexicographic (year, month, day) comparison of calendar dates. -/
def Date.le (a b : Date) : Bool :=
  if a.year ≠ b.year then decide (a.year < b.year)
  else if a.month ≠ b.month then decide (a.month < b.month)
  else decide (a.day ≤ b.day)

/-- The French month-name table of the locale (dateparser's `fr`
months), mapping each name to its number. -/
def moisFR : List (String × Nat) :=
  [("janvier", 1), ("février", 2), ("mars", 3), ("avril", 4), ("mai", 5), ("juin", 6),
   ("juillet", 7), ("août", 8), ("septembre", 9), ("octobre", 10), ("novembre", 11),
   ("décembre", 12)]

/-- Looks a French month name up in the month table. -/
def monthFR (s : String) : Option Nat :=
  (moisFR.find? (fun p => p.1 == s)).map (fun p => p.2)

/-- The numeric value of a decimal digit character, if it is one. -/
def digit? (c : Char) : Option Nat :=
  let n := c.toNat
  if 48 ≤ n ∧ n ≤ 57 then some (n - 48) else none

/-- Reads a nonempty run of decimal digits, most significant first. -/
def natFromDigits : List Char → Nat → Option Nat
  | [], acc => some acc
  | c :: cs, acc =>
    match digit? c with
    | none => none
    | some d => natFromDigits cs (acc * 10 + d)

/-- Parses a token as a decimal number: some iff the token is a
nonempty all-digit string. -/
def tokenNat? (s : String) : Option Nat :=
  match s.data with
  | [] => none
  | cs => natFromDigits cs 0

/-- Modelled from the spec: `parse_date_fr` delegates to the external
`dateparser.parse(date_str, settings={"PREFER_DATES_FROM": "future"}, languages=["fr"])`,
whose code is not part of this repository. Per the spec, the input's
first token is a weekday name (ignored), followed by the day number, the
month name, and an optional year; when the year is absent, among the
candidate years {current year, current year + 1} the one producing a
date not earlier than today is chosen (forward bias); parsing fails
(the code then raises "Unparsed date") when the month name is
unrecognized or fewer than 3 tokens are present. -/
def parse_date_fr (tokens : List String) (today : Date) : Option Date :=
  match tokens with
  | _ :: dayTok :: monthTok :: rest =>
    match tokenNat? dayTok, monthFR monthTok with
    | some d, some m =>
      match rest with
      | [] =>
        let cand : Date := ⟨today.year, m, d⟩
        if Date.le today cand then some cand else some ⟨today.year + 1, m, d⟩
      | yTok :: _ => (tokenNat? yTok).map (fun y => ⟨y, m, d⟩)
    | _, _ => none
  | _ => none

/-- Number of seconds in a day, the unit conversion behind
`datetime.timedelta(days=7)`. -/
def secondsPerDay : Int := 86400

/-- Direct translation of `is_in_more_than_one_week`: the difference
`dt - datetime.datetime.now()` exceeds `timedelta(days=7)`. Datetimes
are seconds; `now` is passed explicitly where Python reads the clock. -/
def is_in_more_than_one_week (now dt : Int) : Bool :=
  decide (dt - now > 7 * secondsPerDay)

/-- The filter predicate of `scrap_matches`: a match is retained when
`not is_in_more_than_one_week(parse_date_fr(match["date"]))`. The
datetime that `parse_date_fr` produces for a date string is supplied by
the valuation `dval` (the external dateparser's output, a function of
the date string alone). -/
def keepMatch (dval : String → Int) (now : Int) (m : MatchRecord) : Bool :=
  ! is_in_more_than_one_week now (dval m.date)

/-- The sort key of `scrap_matches`: `key=lambda m: parse_date_fr(m["date"])`. -/
def sortKey (dval : String → Int) (m : MatchRecord) : Int :=
  dval m.date

/-- The filter-then-sort pipeline of `scrap_matches`: keep the matches
not more than one week away, then `filtered_matches.sort(key=...)`, a
stable ascending sort by normalized date, modelled by insertion sort
with the reflexive key order. (The code only calls `.sort` when the
filtered list is nonempty; sorting the empty list is the empty list, so
the unconditional composition is the same function.) -/
def upcoming_filter (dval : String → Int) (now : Int) (ms : List MatchRecord) :
    List MatchRecord :=
  List.insertionSort (fun a b => sortKey dval a ≤ sortKey dval b)
    (ms.filter (keepMatch dval now))

/-- The environment `send_sms` reads: the two credentials from the
environment, and the status code its single GET will receive. -/
structure SmsEnv where
  user : String
  password : String
  status : Nat
deriving DecidableEq, Repr

/-- The observable outcome of `send_sms`: the URLs requested, the lines
printed, and the Python return value, which is `None` (the function is
annotated `-> None` and has no return statement). -/
structure SmsOutcome where
  requests : List String
  logs : List String
  retval : Unit
deriving DecidableEq, Repr

/-- Direct translation of `send_sms`: build the gateway URL from the
credentials and the (caller-quoted) message, perform one GET, print a
success line on status 200 and a failure line (with the message and the
status code) otherwise, and return `None`. No retry, no raise. -/
def send_sms (env : SmsEnv) (message : String) : SmsOutcome :=
  let sms_url := "https://smsapi.free-mobile.fr/sendmsg?user=" ++ env.user ++
    "&pass=" ++ env.password ++ "&msg=" ++ message
  { requests := [sms_url],
    logs :=
      if env.status == 200 then ["SMS sent successfully"]
      else ["Failed to send SMS !\n" ++ message ++ "\nstatus code: " ++ toString env.status],
    retval := () }

/-- Modelled from the spec (refinement target for the `id` claim): "Derive
`id` by concatenating date, inferred current year, hour, and teams with
an em-dash separator" — all four parts joined by the em-dash. -/
def specId (date : String) (year : Nat) (hour teams : String) : String :=
  date ++ " — " ++ toString year ++ " — " ++ hour ++ " — " ++ teams

/-- Computation rule: binding a successful `Except` runs the
continuation. -/
theorem exbind_ok {ε α β : Type} (x : α) (f : α → Except ε β) :
    (Except.ok x >>= f) = f x := rfl

/-- Computation rule: binding a failed `Except` propagates the error. -/
theorem exbind_error {ε α β : Type} (e : ε) (f : α → Except ε β) :
    (Except.error e >>= f : Except ε β) = Except.error e := rfl

/-- A well-formed pair extracts successfully, to exactly the record
`pairMatch` describes. -/
theorem extractPair_ok (year : Nat) (a b : Row)
    (h1 : a.cells ≠ []) (h2 : b.date_tds ≠ []) (h3 : b.fixture_h4s ≠ [])
    (h4 : b.competitions_divs ≠ []) :
    extractPair year a b = .ok (pairMatch year (a, b)) := by
  match ha : a.cells, hb : b.date_tds, hc : b.fixture_h4s, hd : b.competitions_divs with
  | [], _, _, _ => exact absurd ha h1
  | _ :: _, [], _, _ => exact absurd hb h2
  | _ :: _, _ :: _, [], _ => exact absurd hc h3
  | _ :: _, _ :: _, _ :: _, [] => exact absurd hd h4
  | x :: _, y :: _, z :: _, w :: _ =>
    simp [extractPair, first?, pairMatch, ha, hb, hc, hd, exbind_ok]

/-- Pair extraction only ever fails with a missing-element error. -/
theorem extractPair_ne_formatMismatch (year : Nat) (a b : Row) (k : Nat) :
    extractPair year a b ≠ .error (.formatMismatch k) := by
  intro h
  cases ha : a.cells with
  | nil => simp [extractPair, first?, ha, exbind_error] at h
  | cons x xs =>
    cases hb : b.date_tds with
    | nil => simp [extractPair, first?, ha, hb, exbind_ok, exbind_error] at h
    | cons y ys =>
      cases hc : b.fixture_h4s with
      | nil => simp [extractPair, first?, ha, hb, hc, exbind_ok, exbind_error] at h
      | cons z zs =>
        cases hd : b.competitions_divs with
        | nil => simp [extractPair, first?, ha, hb, hc, hd, exbind_ok, exbind_error] at h
        | cons w ws => simp [extractPair, first?, ha, hb, hc, hd, exbind_ok] at h

/-- The row-pairing loop only ever fails with a missing-element error,
never with the table-count format-mismatch error. -/
theorem parse_rows_ne_formatMismatch (year : Nat) :
    ∀ (rows : List Row) (n : Nat), parse_rows year rows ≠ .error (.formatMismatch n) := by
  intro rows
  induction rows using parse_rows.induct year with
  | case1 => intro n h; exact Except.noConfusion h
  | case2 _ => intro n h; exact Except.noConfusion h
  | case3 d det rest ih =>
    intro n h
    rw [parse_rows] at h
    cases he : extractPair year d det with
    | error e =>
      rw [he, exbind_error] at h
      cases e with
      | formatMismatch k => exact extractPair_ne_formatMismatch year d det k he
      | missingElem w => simp at h
    | ok m =>
      rw [he, exbind_ok] at h
      cases hr : parse_rows year rest with
      | error e =>
        rw [hr, exbind_error] at h
        cases e with
        | formatMismatch k => exact ih k hr
        | missingElem w => simp at h
      | ok ms => rw [hr, exbind_ok] at h; simp at h

/-- The pairing loop on a flattened list of well-formed pairs returns
exactly the records of those pairs, whether or not a trailing odd row
follows. -/
theorem parse_rows_pairs (year : Nat) (ps : List (Row × Row))
    (hwf : ∀ p ∈ ps, p.1.cells ≠ [] ∧ p.2.date_tds ≠ [] ∧ p.2.fixture_h4s ≠ [] ∧
      p.2.competitions_divs ≠ []) :
    parse_rows year (pairsFlatten ps) = .ok (ps.map (pairMatch year)) ∧
    ∀ r : Row, parse_rows year (pairsFlatten ps ++ [r]) = .ok (ps.map (pairMatch year)) := by
  induction ps with
  | nil => exact ⟨rfl, fun _ => rfl⟩
  | cons p ps ih =>
    obtain ⟨a, b⟩ := p
    have hp := hwf (a, b) (List.mem_cons_self _ _)
    have ihs := ih (fun q hq => hwf q (List.mem_cons_of_mem _ hq))
    have he := extractPair_ok year a b hp.1 hp.2.1 hp.2.2.1 hp.2.2.2
    constructor
    · show parse_rows year (a :: b :: pairsFlatten ps) = _
      rw [parse_rows, he, exbind_ok, ihs.1, exbind_ok]
      rfl
    · intro r
      show parse_rows year (a :: b :: (pairsFlatten ps ++ [r])) = _
      rw [parse_rows, he, exbind_ok, ihs.2 r, exbind_ok]
      rfl

/-- C1: for a page whose chosen schedule table contains N well-formed
date/details row pairs, `parse_details` returns exactly N MatchRecords
in document order (the k-th record comes from the k-th pair); rows are
consumed strictly two at a time, and a trailing odd row is dropped
without emitting a record and without raising an error. -/
theorem c1_pairing (year : Nat) (ps : List (Row × Row))
    (hwf : ∀ p ∈ ps, p.1.cells ≠ [] ∧ p.2.date_tds ≠ [] ∧ p.2.fixture_h4s ≠ [] ∧
      p.2.competitions_divs ≠ []) :
    parse_details year [⟨pairsFlatten ps⟩] = .ok (ps.map (pairMatch year)) ∧
    (∀ r : Row, parse_details year [⟨pairsFlatten ps ++ [r]⟩] =
      .ok (ps.map (pairMatch year))) ∧
    (ps.map (pairMatch year)).length = ps.length := by
  have h := parse_rows_pairs year ps hwf
  exact ⟨h.1, fun r => h.2 r, by simp⟩

/-- Witness for C1: a concrete one-pair page (the spec's end-to-end
example) yields exactly that one record, with or without a trailing odd
row. -/
theorem c1_pairing_witness :
    parse_details 2025 [⟨pairsFlatten [(⟨["mercredi 18 juin"], [], [], []⟩,
        ⟨[], ["21h00"], ["Real Madrid - Al-Hilal"], ["Coupe du Monde"]⟩)]⟩] =
      .ok [pairMatch 2025 (⟨["mercredi 18 juin"], [], [], []⟩,
        ⟨[], ["21h00"], ["Real Madrid - Al-Hilal"], ["Coupe du Monde"]⟩)] ∧
    parse_details 2025 [⟨pairsFlatten [(⟨["mercredi 18 juin"], [], [], []⟩,
        ⟨[], ["21h00"], ["Real Madrid - Al-Hilal"], ["Coupe du Monde"]⟩)] ++
        [⟨["samedi 21 juin"], [], [], []⟩]⟩] =
      .ok [pairMatch 2025 (⟨["mercredi 18 juin"], [], [], []⟩,
        ⟨[], ["21h00"], ["Real Madrid - Al-Hilal"], ["Coupe du Monde"]⟩)] := by
  have h := c1_pairing 2025 [(⟨["mercredi 18 juin"], [], [], []⟩,
    ⟨[], ["21h00"], ["Real Madrid - Al-Hilal"], ["Coupe du Monde"]⟩)] (by simp)
  exact ⟨h.1, h.2.1 _⟩

/-- C2: the Match Extractor's table selection. Zero tables yields the
empty list with no error; one table is parsed directly; of two tables
the second is parsed; and the format-mismatch ("Unexpected number of
tables") error is raised exactly when more than two tables are present
(row-level extraction failures are the distinct missing-element error,
never the format mismatch). -/
theorem c2_table_selection (year : Nat) (tables : List Table) :
    (tables = [] → parse_details year tables = .ok []) ∧
    (∀ t, tables = [t] → parse_details year tables = parse_rows year t.rows) ∧
    (∀ t1 t2, tables = [t1, t2] → parse_details year tables = parse_rows year t2.rows) ∧
    ((∃ n, parse_details year tables = .error (.formatMismatch n)) ↔ 2 < tables.length) := by
  refine ⟨?_, ?_, ?_, ?_⟩
  · rintro rfl; rfl
  · rintro t rfl; rfl
  · rintro t1 t2 rfl; rfl
  · constructor
    · rintro ⟨n, hn⟩
      match tables, hn with
      | [], hn => exact absurd hn (by simp [parse_details])
      | [t], hn => exact absurd hn (parse_rows_ne_formatMismatch year t.rows n)
      | [t1, t2], hn => exact absurd hn (parse_rows_ne_formatMismatch year t2.rows n)
      | t1 :: t2 :: t3 :: ts, hn => simp [List.length]
    · intro hlen
      match tables, hlen with
      | t1 :: t2 :: t3 :: ts, _ =>
        exact ⟨(t1 :: t2 :: t3 :: ts).length, by simp [parse_details]⟩

/-- Witness for C2: a concrete one-table page is parsed from that
table, and a concrete three-table page raises the format mismatch. -/
theorem c2_table_selection_witness :
    parse_details 2025 [⟨[]⟩] = parse_rows 2025 ([] : List Row) ∧
    ∃ n, parse_details 2025 [⟨[]⟩, ⟨[]⟩, ⟨[]⟩] = .error (.formatMismatch n) :=
  ⟨(c2_table_selection 2025 [⟨[]⟩]).2.1 ⟨[]⟩ rfl,
   (c2_table_selection 2025 [⟨[]⟩, ⟨[]⟩, ⟨[]⟩]).2.2.2.mpr (by decide)⟩

/-- Any successfully extracted record's `id` has the shape of the code's
f-string: date, space, year, then em-dash-separated hour and teams. -/
theorem extractPair_id (year : Nat) (a b : Row) (m : MatchRecord)
    (h : extractPair year a b = .ok m) :
    m.id = m.date ++ " " ++ toString year ++ " — " ++ m.hour ++ " — " ++ m.teams := by
  cases ha : a.cells with
  | nil => simp [extractPair, first?, ha, exbind_error] at h
  | cons x xs =>
    cases hb : b.date_tds with
    | nil => simp [extractPair, first?, ha, hb, exbind_ok, exbind_error] at h
    | cons y ys =>
      cases hc : b.fixture_h4s with
      | nil => simp [extractPair, first?, ha, hb, hc, exbind_ok, exbind_error] at h
      | cons z zs =>
        cases hd : b.competitions_divs with
        | nil => simp [extractPair, first?, ha, hb, hc, hd, exbind_ok, exbind_error] at h
        | cons w ws =>
          simp [extractPair, first?, ha, hb, hc, hd, exbind_ok] at h
          subst h
          rfl

/-- C7 (amended): every record `parse_rows` emits has its `id` equal to
the date string, a space, the inferred current year, then the hour and
the teams each preceded by an em-dash separator — the em-dash separates
hour and teams, but date and year are joined by a plain space. -/
theorem c7_id_format (year : Nat) (rows : List Row) :
    ∀ ms : List MatchRecord, parse_rows year rows = .ok ms →
      ∀ m ∈ ms,
        m.id = m.date ++ " " ++ toString year ++ " — " ++ m.hour ++ " — " ++ m.teams := by
  induction rows using parse_rows.induct year with
  | case1 =>
    intro ms h m hm
    rw [parse_rows] at h
    cases h
    simp at hm
  | case2 _ =>
    intro ms h m hm
    rw [parse_rows] at h
    cases h
    simp at hm
  | case3 d det rest ih =>
    intro ms h m hm
    rw [parse_rows] at h
    cases he : extractPair year d det with
    | error e => rw [he, exbind_error] at h; exact Except.noConfusion h
    | ok m0 =>
      rw [he, exbind_ok] at h
      cases hr : parse_rows year rest with
      | error e => rw [hr, exbind_error] at h; exact Except.noConfusion h
      | ok tail =>
        rw [hr, exbind_ok] at h
        cases h
        rcases List.mem_cons.mp hm with rfl | hm'
        · exact extractPair_id year d det m he
        · exact ih tail hr m hm'

/-- Witness for C7 (amended): the id of the concretely extracted record
follows the space-then-em-dash shape. -/
theorem c7_id_format_witness :
    (mkMatch 2024 "samedi 21 juin" "18h00" "Liverpool - Bayern"
        "Ligue des Champions").id =
      "samedi 21 juin" ++ " " ++ toString 2024 ++ " — " ++ "18h00" ++ " — " ++
        "Liverpool - Bayern" :=
  c7_id_format 2024
    [⟨["samedi 21 juin"], [], [], []⟩,
     ⟨[], ["18h00"], ["Liverpool - Bayern"], ["Ligue des Champions"]⟩]
    [mkMatch 2024 "samedi 21 juin" "18h00" "Liverpool - Bayern" "Ligue des Champions"]
    rfl _ (by simp)

/-- Counterexample for C7 as stated: the code's id for the concretely
extracted record is NOT the em-dash concatenation of date, year, hour
and teams (`specId`): date and year are joined by a space, not an
em-dash. -/
theorem c7_id_counterexample :
    parse_rows 2025 [⟨["mercredi 18 juin"], [], [], []⟩,
        ⟨[], ["21h00"], ["Real Madrid - Al-Hilal"], ["Coupe du Monde"]⟩] =
      .ok [mkMatch 2025 "mercredi 18 juin" "21h00" "Real Madrid - Al-Hilal"
        "Coupe du Monde"] ∧
    (mkMatch 2025 "mercredi 18 juin" "21h00" "Real Madrid - Al-Hilal"
        "Coupe du Monde").id ≠
      specId "mercredi 18 juin" 2025 "21h00" "Real Madrid - Al-Hilal" := by
  exact ⟨rfl, by decide⟩

/-- C3: with a recognized day number and month name and no year token,
the Date Normalizer resolves the year with forward bias: the result is
the parsed day/month in the current year or the next, is never earlier
than today, and moves to the next year exactly when the current-year
candidate falls before today; in particular "18 juin" parsed on
2025-12-01 resolves to 2026-06-18. -/
theorem c3_forward_bias (today : Date) (w dayTok monthTok : String) (d m : Nat)
    (hd : tokenNat? dayTok = some d) (hm : monthFR monthTok = some m) :
    (∃ dte : Date,
      parse_date_fr [w, dayTok, monthTok] today = some dte ∧
      dte.month = m ∧ dte.day = d ∧
      (dte.year = today.year ∨ dte.year = today.year + 1) ∧
      Date.le today dte = true ∧
      (dte.year = today.year + 1 → Date.le today ⟨today.year, m, d⟩ = false)) ∧
    parse_date_fr ["mercredi", "18", "juin"] ⟨2025, 12, 1⟩ = some ⟨2026, 6, 18⟩ := by
  refine ⟨?_, by decide⟩
  have heq : parse_date_fr [w, dayTok, monthTok] today =
      if Date.le today ⟨today.year, m, d⟩ then some ⟨today.year, m, d⟩
      else some ⟨today.year + 1, m, d⟩ := by
    simp only [parse_date_fr, hd, hm]
  cases hb : Date.le today ⟨today.year, m, d⟩ with
  | true =>
    refine ⟨⟨today.year, m, d⟩, ?_, rfl, rfl, Or.inl rfl, hb, ?_⟩
    · rw [heq, hb, if_pos rfl]
    · intro hy
      have h2 : today.year = today.year + 1 := hy
      exact absurd h2 (by omega)
  | false =>
    refine ⟨⟨today.year + 1, m, d⟩, ?_, rfl, rfl, Or.inr rfl, ?_, fun _ => rfl⟩
    · rw [heq, hb]
      simp
    · simp [Date.le]

/-- Witness for C3: the spec's concrete example, with the hypotheses of
the forward-bias theorem discharged on "18" and "juin". -/
theorem c3_forward_bias_witness :
    tokenNat? "18" = some 18 ∧ monthFR "juin" = some 6 ∧
    parse_date_fr ["mercredi", "18", "juin"] ⟨2025, 12, 1⟩ = some ⟨2026, 6, 18⟩ :=
  ⟨by decide, by decide,
    (c3_forward_bias ⟨2025, 12, 1⟩ "mercredi" "18" "juin" 18 6 (by decide) (by decide)).2⟩

/-- C6: on an input whose day token (and year token, when present) is
numeric, the Date Normalizer fails exactly when the month name is
unrecognized; and every input of fewer than 3 tokens fails. Together:
parsing fails exactly when the month name is unrecognized or the string
has fewer than 3 tokens. -/
theorem c6_parse_failure (today : Date) (w dTok moTok : String) (rest : List String)
    (d : Nat) (hd : tokenNat? dTok = some d)
    (hy : ∀ y ys, rest = y :: ys → (tokenNat? y).isSome) :
    (parse_date_fr (w :: dTok :: moTok :: rest) today = none ↔ monthFR moTok = none) ∧
    ∀ ts : List String, ts.length < 3 → parse_date_fr ts today = none := by
  constructor
  · constructor
    · intro h
      by_contra hmo
      obtain ⟨m, hm⟩ := Option.ne_none_iff_exists'.mp hmo
      cases rest with
      | nil =>
        simp only [parse_date_fr, hd, hm] at h
        cases hb : Date.le today ⟨today.year, m, d⟩ <;> simp [hb] at h
      | cons y ys =>
        have hys := hy y ys rfl
        obtain ⟨yv, hyv⟩ := Option.isSome_iff_exists.mp hys
        simp only [parse_date_fr, hd, hm, hyv] at h
        simp at h
    · intro hmo
      cases rest with
      | nil => simp [parse_date_fr, hd, hmo]
      | cons y ys => simp [parse_date_fr, hd, hmo]
  · intro ts hts
    match ts, hts with
    | [], _ => rfl
    | [a], _ => rfl
    | [a, b], _ => rfl

/-- Witness for C6: "zzz" is not a month, so "mercredi 18 zzz" fails;
and the two-token "mercredi 18" fails. -/
theorem c6_parse_failure_witness :
    (parse_date_fr ["mercredi", "18", "zzz"] ⟨2025, 1, 1⟩ = none ↔ monthFR "zzz" = none) ∧
    parse_date_fr ["mercredi", "18"] ⟨2025, 1, 1⟩ = none := by
  have h := c6_parse_failure ⟨2025, 1, 1⟩ "mercredi" "18" "zzz" [] 18 (by decide)
    (fun y ys hy => List.noConfusion hy)
  exact ⟨h.1, h.2 ["mercredi", "18"] (by decide)⟩

/-- C4: the Upcoming Filter keeps a record exactly when its normalized
date minus now is at most 7 days: the `dt - now > timedelta(days=7)`
test rejects exactly the strictly-more-than-7-days dates, so exactly 7
days away is kept, 7 days + 1 hour away is dropped, 8 days away is
dropped. -/
theorem c4_week_boundary (now dt : Int) (dval : String → Int) (m : MatchRecord) :
    (is_in_more_than_one_week now dt = false ↔ dt - now ≤ 7 * secondsPerDay) ∧
    (keepMatch dval now m = true ↔ dval m.date - now ≤ 7 * secondsPerDay) ∧
    is_in_more_than_one_week now (now + 7 * secondsPerDay) = false ∧
    is_in_more_than_one_week now (now + 7 * secondsPerDay + 3600) = true ∧
    is_in_more_than_one_week now (now + 8 * secondsPerDay) = true := by
  refine ⟨?_, ?_, ?_, ?_, ?_⟩ <;>
    · simp [is_in_more_than_one_week, keepMatch, secondsPerDay]
      try omega

/-- C9: a date not after now is never flagged as more than one week
away, so the filter keeps records arbitrarily far in the past: there is
no lower bound on retained dates. -/
theorem c9_no_lower_bound (now dt : Int) (h : dt ≤ now) :
    is_in_more_than_one_week now dt = false ∧
    ∀ (dval : String → Int) (m : MatchRecord),
      dval m.date = dt → keepMatch dval now m = true := by
  constructor
  · simp [is_in_more_than_one_week, secondsPerDay]
    omega
  · intro dval m hm
    simp [keepMatch, is_in_more_than_one_week, hm, secondsPerDay]
    omega

/-- Witness for C9: a match a billion seconds in the past (over 31
years) is not "more than one week away" and is kept. -/
theorem c9_no_lower_bound_witness :
    is_in_more_than_one_week 0 (-1000000000) = false ∧
    keepMatch (fun _ => -1000000000) 0
      (mkMatch 2025 "mercredi 18 juin" "21h00" "A - B" "L1") = true := by
  have h := c9_no_lower_bound 0 (-1000000000) (by decide)
  exact ⟨h.1, h.2 (fun _ => -1000000000)
    (mkMatch 2025 "mercredi 18 juin" "21h00" "A - B" "L1") rfl⟩

/-- Inserting an element into a list keeps, among the elements of any
fixed key, the inserted element first: the elements it is placed after
all have strictly smaller keys. -/
theorem filter_orderedInsert_key (key : MatchRecord → Int) (k : Int) (x : MatchRecord) :
    ∀ l : List MatchRecord,
      (List.orderedInsert (fun a b => key a ≤ key b) x l).filter (fun m => key m == k) =
        if key x == k then x :: l.filter (fun m => key m == k)
        else l.filter (fun m => key m == k) := by
  intro l
  induction l with
  | nil =>
    simp only [List.orderedInsert, List.filter]
    cases hxk : (key x == k) <;> simp
  | cons b l ih =>
    rw [List.orderedInsert]
    by_cases hle : key x ≤ key b
    · rw [if_pos hle]
      rw [List.filter_cons, List.filter_cons]
    · rw [if_neg hle]
      rw [List.filter_cons, ih, List.filter_cons]
      by_cases hxk : (key x == k) = true
      · have hbk : (key b == k) = false := by
          have h1 : key x = k := by simpa using hxk
          have h2 : key b < key x := lt_of_not_le hle
          simp only [beq_eq_false_iff_ne, ne_eq]
          omega

        rw [if_pos hxk, if_pos hxk, hbk]
        simp
      · rw [if_neg hxk, if_neg hxk]

/-- The stable insertion sort leaves the subsequence of any fixed key
value unchanged. -/
theorem filter_insertionSort_key (key : MatchRecord → Int) (k : Int) :
    ∀ l : List MatchRecord,
      (List.insertionSort (fun a b => key a ≤ key b) l).filter (fun m => key m == k) =
        l.filter (fun m => key m == k) := by
  intro l
  induction l with
  | nil => rfl
  | cons x l ih =>
    rw [List.insertionSort, filter_orderedInsert_key, ih, List.filter_cons]

/-- C5: the Upcoming Filter's output is sorted ascending by the
normalized date key, and for every key value the subsequence of records
carrying it is exactly their subsequence among the retained records in
original encounter order: the sort is stable. -/
theorem c5_sorted_stable (dval : String → Int) (now : Int) (ms : List MatchRecord) :
    List.Sorted (fun a b => sortKey dval a ≤ sortKey dval b) (upcoming_filter dval now ms) ∧
    ∀ k : Int,
      (upcoming_filter dval now ms).filter (fun m => sortKey dval m == k) =
        (ms.filter (keepMatch dval now)).filter (fun m => sortKey dval m == k) := by
  constructor
  · exact @List.sorted_insertionSort _ _ _
      ⟨fun a b => Int.le_total (sortKey dval a) (sortKey dval b)⟩
      ⟨fun _ _ _ hab hbc => le_trans hab hbc⟩
      (ms.filter (keepMatch dval now))
  · intro k
    exact filter_insertionSort_key (sortKey dval) k (ms.filter (keepMatch dval now))

/-- C10: the keep/drop decision and the sort key of the Upcoming Filter
are functions of the record's date string (and of now) only: two records
agreeing on `date` but differing in hour, teams or competition get the
same decision and the same key. -/
theorem c10_date_only_dependence (dval : String → Int) (now : Int) (m1 m2 : MatchRecord)
    (h : m1.date = m2.date) :
    keepMatch dval now m1 = keepMatch dval now m2 ∧ sortKey dval m1 = sortKey dval m2 := by
  unfold keepMatch sortKey
  rw [h]
  exact ⟨rfl, rfl⟩

/-- Witness for C10: two records with the same date but different hour,
teams and competition get the same keep decision and sort key. -/
theorem c10_date_only_dependence_witness :
    keepMatch (fun s => (s.length : Int)) 0
        (mkMatch 2025 "samedi 21 juin" "18h00" "A - B" "L1") =
      keepMatch (fun s => (s.length : Int)) 0
        (mkMatch 2025 "samedi 21 juin" "21h00" "C - D" "L2") ∧
    sortKey (fun s => (s.length : Int))
        (mkMatch 2025 "samedi 21 juin" "18h00" "A - B" "L1") =
      sortKey (fun s => (s.length : Int))
        (mkMatch 2025 "samedi 21 juin" "21h00" "C - D" "L2") :=
  c10_date_only_dependence (fun s => (s.length : Int)) 0
    (mkMatch 2025 "samedi 21 juin" "18h00" "A - B" "L1")
    (mkMatch 2025 "samedi 21 juin" "21h00" "C - D" "L2") rfl

/-- C8 (amended): `send_sms` returns nothing (Python `None`, not a
success flag); it performs exactly one request (no retry) and on any
non-200 status it prints the failure with the message and status code
instead of raising (no escalation). -/
theorem c8_sms (env : SmsEnv) (message : String) :
    (send_sms env message).requests.length = 1 ∧
    (send_sms env message).retval = () ∧
    (env.status ≠ 200 →
      (send_sms env message).logs =
        ["Failed to send SMS !\n" ++ message ++ "\nstatus code: " ++ toString env.status]) := by
  refine ⟨rfl, rfl, ?_⟩
  intro h
  simp [send_sms, h]

/-- Witness for C8 (amended): a concrete failed delivery (status 404)
makes one request and logs the failure line. -/
theorem c8_sms_witness :
    (send_sms ⟨"user1", "secret", 404⟩ "Prochains matchs").requests.length = 1 ∧
    (send_sms ⟨"user1", "secret", 404⟩ "Prochains matchs").logs =
      ["Failed to send SMS !\n" ++ "Prochains matchs" ++ "\nstatus code: " ++
        toString (404 : Nat)] := by
  have h := c8_sms ⟨"user1", "secret", 404⟩ "Prochains matchs"
  exact ⟨h.1, h.2.2 (by decide)⟩

/-- Counterexample for C8 as stated: the value `send_sms` returns is
identical for a successful (200) and a failed (404) delivery — it
carries no boolean success flag — even though the two runs genuinely
differ (their logs differ). -/
theorem c8_sms_counterexample :
    (send_sms ⟨"user1", "secret", 200⟩ "msg").retval =
      (send_sms ⟨"user1", "secret", 404⟩ "msg").retval ∧
    (send_sms ⟨"user1", "secret", 200⟩ "msg").logs ≠
      (send_sms ⟨"user1", "secret", 404⟩ "msg").logs :=
  ⟨rfl, by decide⟩

end MatchsTv
